import Mathlib

/-!
Shallow embedding of `src/arduino.rs` (zed-arduino extension).

The source is a Zed editor extension with two effectful methods:

* `ArduinoExtension::language_server_binary_path` — resolves the path of the
  arduino-language-server binary (settings override, PATH lookup, cached
  path, or download of the latest GitHub release).
* `ArduinoExtension::language_server_command` — builds the command line and
  environment for launching the server.

External collaborators (the settings subsystem, `worktree.which`,
`fs::metadata`, `latest_github_release`, `download_file`, `fs::read_dir`,
`fs::remove_dir_all`, `make_file_executable`, `std::env::home_dir`,
`std::env::var("LOCALAPPDATA")`, `Path::exists`, `worktree.shell_env`) are
modelled as fields of an `Env` record.  The functions are modelled as pure
Lean functions over `Env`; besides the returned value and the updated
`cached_binary_path` field they produce a trace of the side effects they
performed (`Event`), so that "performs no PATH lookup / download / cleanup"
claims can be stated about the trace.  Rust's `panic!` via `.expect(..)` is
modelled by the `CmdOutcome.abort` constructor; Rust `Result` is modelled by
`Except`; `HashMap` by an association list (the claims do not depend on map
ordering or key uniqueness).  Rust's `{:?}` debug formatting of a string is
modelled as wrapping in double quotes (exact for names without escapes).
-/

namespace ArduinoExt

/-- The operating systems of `zed::Os` (`current_platform().0`). -/
inductive Os where
| mac
| linux
| windows
deriving DecidableEq

/-- The architectures of `zed::Architecture` (`current_platform().1`). -/
inductive Architecture where
| aarch64
| x86
| x8664
deriving DecidableEq

/-- One release asset: `zed::GithubReleaseAsset` (name and download URL). -/
structure Asset where
  name : String
  download_url : String
deriving DecidableEq

/-- A release: `zed::GithubRelease` (version and asset list). -/
structure GithubRelease where
  version : String
  assets : List Asset
deriving DecidableEq

/-- The `binary` part of the LSP settings: path, arguments, env. -/
structure BinarySettings where
  path : Option String
  arguments : Option (List String)
  env : Option (List (String × String))
deriving DecidableEq

/-- The result of `LspSettings::for_worktree("arduino", worktree)`. -/
structure LspSettings where
  binary : Option BinarySettings
deriving DecidableEq

deriving instance DecidableEq for Except

/-- One entry of `fs::read_dir(".")`: its file name and the result of
    `entry.file_type()` (`Bool` = `is_dir`). -/
structure DirEntry where
  name : String
  fileType : Except String Bool
deriving DecidableEq

/-- The install-status notifications sent with
    `zed::set_language_server_installation_status`. -/
inductive Status where
| checkingForUpdate
| downloading
deriving DecidableEq

/-- Trace of observable side effects performed during resolution:
    PATH lookups (`worktree.which`), `fs::metadata` checks, status
    notifications, the release-feed query, downloads, the working-directory
    listing, recursive directory removals, and permission changes. -/
inductive Event where
| whichQuery : String → Event
| statFile : String → Event
| setStatus : Status → Event
| fetchRelease : Event
| download : String → String → Event
| listDir : Event
| removeDirAll : String → Event
| makeExecutable : String → Event
deriving DecidableEq

/-- The external world as seen by the extension. -/
structure Env where
  lspSettings : Except String LspSettings
  which : String → Option String
  isFile : String → Bool
  latestRelease : Except String GithubRelease
  platform : Os
  arch : Architecture
  downloadOk : String → String → Except String Unit
  readDir : Except String (List (Except String DirEntry))
  removeOk : String → Bool
  makeExec : String → Except String Unit
  homeDir : Option String
  localAppData : Option String
  pathExists : String → Bool
  shellEnv : List (String × String)

/-- The explicit override of the resolver (lines 15–23 of the source):
    `LspSettings::for_worktree("arduino", worktree)` succeeded, `binary` is
    set and `binary.path` is set. -/
def resolveOverride (env : Env) : Option String :=
  match env.lspSettings with
  | Except.ok s =>
    match s.binary with
    | some b => b.path
    | none => none
  | Except.error _ => none

/-- The expected asset name (source lines 56–69):
    `arduino-language-server_{version}_{os}_{arch}.tar.gz` with the two
    inline `match` lookup tables. -/
def mkAssetName (version : String) (platform : Os) (arch : Architecture) : String :=
  "arduino-language-server_" ++ version ++ "_" ++
    (match platform with
     | Os.mac => "macOS"
     | Os.linux => "Linux"
     | Os.windows => "Windows") ++ "_" ++
    (match arch with
     | Architecture.aarch64 => "ARM64"
     | Architecture.x86 => "32bit"
     | Architecture.x8664 => "64bit") ++ ".tar.gz"

/-- The spec's OS lookup table (§4.2): exactly one label per OS value. -/
def osLabel : Os → String
  | Os.mac => "macOS"
  | Os.linux => "Linux"
  | Os.windows => "Windows"

/-- The spec's architecture lookup table (§4.2): one label per value. -/
def archLabel : Architecture → String
  | Architecture.aarch64 => "ARM64"
  | Architecture.x86 => "32bit"
  | Architecture.x8664 => "64bit"

/-- The executable file name inside the extracted archive
    (source lines 81–84). -/
def binaryName : Os → String
  | Os.mac | Os.linux => "arduino-language-server"
  | Os.windows => "arduino-language-server.exe"

/-- The cleanup loop over the entries of `fs::read_dir(".")`
    (source lines 109–121).  A failed entry or a failed `file_type()` aborts
    the loop with an error (the `?` operator); a directory whose name differs
    from the version directory is removed with
    `fs::remove_dir_all(entry.path()).ok()` — the removal's own result is
    discarded, so it does not influence control flow.  Returns the removal
    events performed and the loop's overall outcome. -/
def cleanupEntries (versionDir : String) :
    List (Except String DirEntry) → List Event × Except String Unit
  | [] => ([], Except.ok ())
  | Except.error e :: _ =>
    ([], Except.error ("failed to load directory entry " ++ e))
  | Except.ok entry :: rest =>
    match entry.fileType with
    | Except.error e =>
      ([], Except.error
        ("failed to get file type for \"./" ++ entry.name ++ "\": " ++ e))
    | Except.ok isDir =>
      let evs := if isDir && entry.name != versionDir
        then [Event.removeDirAll ("./" ++ entry.name)] else []
      let r := cleanupEntries versionDir rest
      (evs ++ r.1, r.2)

/-- Whether an entry is a directory (its `file_type()` succeeded with
    `is_dir`). -/
def entryIsDir (e : DirEntry) : Bool :=
  match e.fileType with
  | Except.ok b => b
  | Except.error _ => false

/-- Model of the working-directory listing after the cleanup loop, for the
    case in which every entry was inspected successfully: a directory
    survives iff it is the version directory or its removal failed
    (`env.removeOk` tells whether `fs::remove_dir_all` on a path
    succeeds). -/
def remainingDirs (env : Env) (versionDir : String) (entries : List DirEntry) :
    List String :=
  (entries.filter (fun e =>
    entryIsDir e &&
      (e.name == versionDir || !env.removeOk ("./" ++ e.name)))).map
    DirEntry.name

/-- The acquisition step of the resolver (source lines 38–128 up to the
    cache update): status notification, release query, asset match, optional
    download with cleanup and permission change.  Returns the resolution
    result and the events performed. -/
def acquire (env : Env) : Except String String × List Event :=
  let evs0 := [Event.setStatus Status.checkingForUpdate, Event.fetchRelease]
  match env.latestRelease with
  | Except.error e => (Except.error e, evs0)
  | Except.ok release =>
    let assetName := mkAssetName release.version env.platform env.arch
    match release.assets.find? (fun a => a.name == assetName) with
    | none =>
      (Except.error ("no asset found matching \"" ++ assetName ++ "\""), evs0)
    | some asset =>
      let versionDir := "arduino-language-server-" ++ release.version
      let finalBinaryPath := versionDir ++ "/" ++ binaryName env.platform
      if env.isFile finalBinaryPath then
        (Except.ok finalBinaryPath, evs0 ++ [Event.statFile finalBinaryPath])
      else
        let evs1 := evs0 ++ [Event.statFile finalBinaryPath,
          Event.setStatus Status.downloading,
          Event.download asset.download_url versionDir]
        match env.downloadOk asset.download_url versionDir with
        | Except.error e =>
          (Except.error ("failed to download file: " ++ e), evs1)
        | Except.ok _ =>
          match env.readDir with
          | Except.error e =>
            (Except.error ("failed to list working directory " ++ e),
              evs1 ++ [Event.listDir])
          | Except.ok entries =>
            let c := cleanupEntries versionDir entries
            match c.2 with
            | Except.error e => (Except.error e, evs1 ++ [Event.listDir] ++ c.1)
            | Except.ok _ =>
              match env.makeExec finalBinaryPath with
              | Except.error e =>
                (Except.error e, evs1 ++ [Event.listDir] ++ c.1 ++
                  [Event.makeExecutable finalBinaryPath])
              | Except.ok _ =>
                (Except.ok finalBinaryPath, evs1 ++ [Event.listDir] ++ c.1 ++
                  [Event.makeExecutable finalBinaryPath])

/-- The update of `self.cached_binary_path` (source line 127): it is set to
    the fresh path when acquisition succeeds; an early error return leaves it
    unchanged. -/
def updateCached (r : Except String String) (cached : Option String) :
    Option String :=
  match r with
  | Except.ok p => some p
  | Except.error _ => cached

/-- Steps 3–4 of the resolver (source lines 30–128): cache validation
    followed by acquisition. -/
def resolveCacheOrAcquire (env : Env) (cached : Option String) :
    Except String String × Option String × List Event :=
  match cached with
  | some path =>
    if env.isFile path then
      (Except.ok path, cached, [Event.statFile path])
    else
      let a := acquire env
      (a.1, updateCached a.1 cached, Event.statFile path :: a.2)
  | none =>
    let a := acquire env
    (a.1, updateCached a.1 cached, a.2)

/-- `ArduinoExtension::language_server_binary_path` (source lines 9–129):
    settings override, then `worktree.which("arduino_language_server")`,
    then cache check, then acquisition.  Returns the result, the updated
    `cached_binary_path`, and the trace of side effects. -/
def language_server_binary_path (env : Env) (cached : Option String) :
    Except String String × Option String × List Event :=
  match resolveOverride env with
  | some path => (Except.ok path, cached, [])
  | none =>
    match env.which "arduino_language_server" with
    | some path =>
      (Except.ok path, cached, [Event.whichQuery "arduino_language_server"])
    | none =>
      let r := resolveCacheOrAcquire env cached
      (r.1, r.2.1, Event.whichQuery "arduino_language_server" :: r.2.2)

/-- The command produced by `language_server_command`: executable path,
    argument list, environment pairs (`zed::Command`; the `HashMap` is
    modelled as an association list). -/
structure Command where
  command : String
  args : List String
  env : List (String × String)
deriving DecidableEq

/-- Outcome of `language_server_command`: a command, a propagated error, or
    a hard abort (a Rust panic raised by `.expect(..)`). -/
inductive CmdOutcome where
| ok : Command → CmdOutcome
| err : String → CmdOutcome
| abort : String → CmdOutcome
deriving DecidableEq

/-- The `binary` settings section, when the settings lookup succeeded
    (source lines 148–158 read `arguments` and `env` from it). -/
def settingsBinary (env : Env) : Option BinarySettings :=
  match env.lspSettings with
  | Except.ok s => s.binary
  | Except.error _ => none

/-- The initial argument list of command synthesis (source lines 145–152):
    the settings-supplied arguments, defaulting to empty. -/
def settingsArgs (env : Env) : List String :=
  match settingsBinary env with
  | some b => b.arguments.getD []
  | none => []

/-- The initial environment of command synthesis (source lines 146–157):
    the settings-supplied environment, defaulting to empty. -/
def settingsEnvVars (env : Env) : List (String × String) :=
  match settingsBinary env with
  | some b => b.env.getD []
  | none => []

/-- The default arduino-cli config path (source lines 170–188): under the
    home directory on Mac/Linux, under `LOCALAPPDATA` on Windows.  `none`
    means the required environment lookup failed — the source then panics
    via `.expect(..)`. -/
def defaultCliConfigPath (env : Env) : Option String :=
  match env.platform with
  | Os.mac => env.homeDir.map (fun h => h ++ "/Library/Arduino15/arduino-cli.yaml")
  | Os.linux => env.homeDir.map (fun h => h ++ "/.arduino15/arduino-cli.yaml")
  | Os.windows =>
    env.localAppData.map (fun l => l ++ "\\Arduino15\\arduino-cli.yaml")

/-- The panic message of the failed environment lookup
    (source lines 172, 176, 181). -/
def envAbortMessage : Os → String
  | Os.mac | Os.linux => "Failed to get home directory"
  | Os.windows => "LOCALAPPDATA not found"

/-- Arguments appended by the `-cli-config` default step (source lines
    168–193), given whether the user already supplied `-cli-config`:
    skipped entirely in that case, otherwise appended when the computed
    config path exists on disk.  (The panic on a failed environment lookup
    is handled in `language_server_command`.) -/
def cliConfigArgs (env : Env) (userCliConfig : Bool) : List String :=
  if userCliConfig then []
  else
    match defaultCliConfigPath env with
    | some p => if env.pathExists p then ["-cli-config", p] else []
    | none => []

/-- Arguments appended by the `-clangd` discovery step (source lines
    195–202). -/
def clangdArgs (env : Env) (userClangd : Bool) : List String :=
  if userClangd then []
  else
    match env.which "clangd" with
    | some p => ["-clangd", p]
    | none => []

/-- Arguments appended by the `-cli` discovery step (source lines
    204–209). -/
def cliArgs (env : Env) (userCli : Bool) : List String :=
  if userCli then []
  else
    match env.which "arduino-cli" with
    | some p => ["-cli", p]
    | none => []

/-- The final environment (source lines 214–225): the settings environment,
    or — when that is empty — the shell environment on Mac/Linux and nothing
    on Windows. -/
def defaultEnvVars (env : Env) (env0 : List (String × String)) :
    List (String × String) :=
  if env0.isEmpty then
    match env.platform with
    | Os.mac | Os.linux => env.shellEnv
    | Os.windows => []
  else env0

/-- `ArduinoExtension::language_server_command` (source lines 139–232):
    seed args/env from settings, resolve the binary path (propagating its
    error), then append the `-cli-config`, `-clangd` and `-cli` defaults
    unless the user already supplied the flag, and fill in the default
    environment.  A missing home directory (Mac/Linux) or missing
    `LOCALAPPDATA` (Windows) while computing the `-cli-config` default is a
    panic, modelled as `CmdOutcome.abort`. -/
def language_server_command (env : Env) (cached : Option String) :
    CmdOutcome × Option String :=
  let args0 := settingsArgs env
  let env0 := settingsEnvVars env
  let r := language_server_binary_path env cached
  match r.1 with
  | Except.error e => (CmdOutcome.err e, r.2.1)
  | Except.ok commandPath =>
    let userClangd := args0.contains "-clangd"
    let userCli := args0.contains "-cli"
    let userCliConfig := args0.contains "-cli-config"
    if !userCliConfig && (defaultCliConfigPath env).isNone then
      (CmdOutcome.abort (envAbortMessage env.platform), r.2.1)
    else
      (CmdOutcome.ok
        { command := commandPath,
          args := args0 ++ cliConfigArgs env userCliConfig ++
            clangdArgs env userClangd ++ cliArgs env userCli,
          env := defaultEnvVars env env0 },
        r.2.1)

/-- C3: for every platform in {Mac, Linux, Windows}, every architecture in
    {Aarch64, X86, X8664} and every release version string `v`, the computed
    asset name equals
    `arduino-language-server_` ++ v ++ `_` ++ os-label ++ `_` ++ arch-label
    ++ `.tar.gz`, where the os-label is exactly the fixed lookup table's
    entry out of {macOS, Linux, Windows} and the arch-label exactly the
    table's entry out of {ARM64, 32bit, 64bit}; the computation is a total
    match with no fallback case, hence deterministic. -/
theorem c3_asset_name_format (p : Os) (a : Architecture) (v : String) :
    mkAssetName v p a =
      "arduino-language-server_" ++ v ++ "_" ++ osLabel p ++ "_" ++
        archLabel a ++ ".tar.gz" ∧
    osLabel p ∈ ["macOS", "Linux", "Windows"] ∧
    archLabel a ∈ ["ARM64", "32bit", "64bit"] := by
  cases p <;> cases a <;>
    simp [mkAssetName, osLabel, archLabel]

/-- C1: when the settings report an explicit binary path override, the
    resolver returns exactly that path, leaves the cache untouched, and its
    side-effect trace is empty — no PATH lookup, no cached-path stat, no
    release-feed query, no download. -/
theorem c1_override_returned_verbatim (env : Env) (cached : Option String)
    (s : LspSettings) (b : BinarySettings) (p : String)
    (hs : env.lspSettings = Except.ok s) (hb : s.binary = some b)
    (hp : b.path = some p) :
    language_server_binary_path env cached = (Except.ok p, cached, []) := by
  simp [language_server_binary_path, resolveOverride, hs, hb, hp]

/-- Concrete environment in which the settings supply an explicit binary
    path override. -/
def envOverride : Env where
  lspSettings := Except.ok
    { binary := some { path := some "/opt/als", arguments := none, env := none } }
  which := fun _ => some "/usr/bin/als"
  isFile := fun _ => true
  latestRelease := Except.error "offline"
  platform := Os.linux
  arch := Architecture.x8664
  downloadOk := fun _ _ => Except.ok ()
  readDir := Except.ok []
  removeOk := fun _ => true
  makeExec := fun _ => Except.ok ()
  homeDir := some "/home/u"
  localAppData := none
  pathExists := fun _ => false
  shellEnv := []

/-- Witness for C1 at a concrete environment. -/
theorem c1_override_returned_verbatim_witness :
    language_server_binary_path envOverride (some "/tmp/cached") =
      (Except.ok "/opt/als", some "/tmp/cached", []) :=
  c1_override_returned_verbatim envOverride (some "/tmp/cached") _ _ _
    rfl rfl rfl

/-- Whatever the outcome of acquisition, its trace records the release-feed
    query (it is emitted before any branching). -/
theorem fetchRelease_mem_acquire (env : Env) :
    Event.fetchRelease ∈ (acquire env).2 := by
  rcases hr : env.latestRelease with e | rel
  · simp [acquire, hr]
  · rcases hf : rel.assets.find?
        (fun a => a.name == mkAssetName rel.version env.platform env.arch)
      with _ | asset
    · simp [acquire, hr, hf]
    · cases hb : env.isFile
          ("arduino-language-server-" ++ rel.version ++ "/" ++
            binaryName env.platform)
      · rcases hd : env.downloadOk asset.download_url
            ("arduino-language-server-" ++ rel.version) with e | u
        · simp [acquire, hr, hf, hb, hd]
        · rcases hrd : env.readDir with e | entries
          · simp [acquire, hr, hf, hb, hd, hrd]
          · rcases hc : (cleanupEntries
                ("arduino-language-server-" ++ rel.version) entries).2
              with e | u
            · simp [acquire, hr, hf, hb, hd, hrd, hc]
            · rcases hm : env.makeExec
                  ("arduino-language-server-" ++ rel.version ++ "/" ++
                    binaryName env.platform) with e | u
              · simp [acquire, hr, hf, hb, hd, hrd, hc, hm]
              · simp [acquire, hr, hf, hb, hd, hrd, hc, hm]
      · simp [acquire, hr, hf, hb]

/-- C5: when the fetched release has no asset whose name equals the computed
    asset name, resolution fails outright — the result is an error whose
    message contains the computed asset name, and the trace ends at the
    release query: no download, no fallback. -/
theorem c5_no_matching_asset_fails (env : Env) (rel : GithubRelease)
    (hover : resolveOverride env = none)
    (hwhich : env.which "arduino_language_server" = none)
    (hrel : env.latestRelease = Except.ok rel)
    (hnone : ∀ a ∈ rel.assets,
      a.name ≠ mkAssetName rel.version env.platform env.arch) :
    ∃ s t, language_server_binary_path env none =
      (Except.error
        (s ++ mkAssetName rel.version env.platform env.arch ++ t), none,
       [Event.whichQuery "arduino_language_server",
        Event.setStatus Status.checkingForUpdate, Event.fetchRelease]) := by
  refine ⟨"no asset found matching \"", "\"", ?_⟩
  have hf : rel.assets.find?
      (fun a => a.name == mkAssetName rel.version env.platform env.arch)
        = none := by
    rw [List.find?_eq_none]
    intro a ha
    simpa using hnone a ha
  simp [language_server_binary_path, resolveCacheOrAcquire, acquire,
    updateCached, hover, hwhich, hrel, hf]

/-- Concrete environment whose release carries no matching asset. -/
def envNoAsset : Env :=
  { envOverride with
    lspSettings := Except.error "no settings",
    which := fun _ => none,
    latestRelease := Except.ok
      { version := "1.2.0",
        assets := [{ name := "other.zip", download_url := "http://u/o" }] } }

/-- Witness for C5 at a concrete environment. -/
theorem c5_no_matching_asset_fails_witness :
    ∃ s t, language_server_binary_path envNoAsset none =
      (Except.error
        (s ++ mkAssetName "1.2.0" Os.linux Architecture.x8664 ++ t), none,
       [Event.whichQuery "arduino_language_server",
        Event.setStatus Status.checkingForUpdate, Event.fetchRelease]) :=
  c5_no_matching_asset_fails envNoAsset
    { version := "1.2.0",
      assets := [{ name := "other.zip", download_url := "http://u/o" }] }
    rfl rfl rfl (by decide)

/-- C4: when the executable already exists as a regular file at the composed
    versioned path, resolution returns that path and the invocation performs
    no download, no working-directory listing, no removal, and no
    executable-permission change — after the release lookup the
    directory-manager part is a pure path computation. -/
theorem c4_existing_binary_pure (env : Env) (rel : GithubRelease)
    (asset : Asset)
    (hover : resolveOverride env = none)
    (hwhich : env.which "arduino_language_server" = none)
    (hrel : env.latestRelease = Except.ok rel)
    (hfind : rel.assets.find?
      (fun a => a.name == mkAssetName rel.version env.platform env.arch)
        = some asset)
    (hfile : env.isFile
      ("arduino-language-server-" ++ rel.version ++ "/" ++
        binaryName env.platform) = true) :
    language_server_binary_path env none =
      (Except.ok
        ("arduino-language-server-" ++ rel.version ++ "/" ++
          binaryName env.platform),
       some ("arduino-language-server-" ++ rel.version ++ "/" ++
          binaryName env.platform),
       [Event.whichQuery "arduino_language_server",
        Event.setStatus Status.checkingForUpdate, Event.fetchRelease,
        Event.statFile ("arduino-language-server-" ++ rel.version ++ "/" ++
          binaryName env.platform)]) ∧
    (∀ u d, Event.download u d ∉ (language_server_binary_path env none).2.2) ∧
    Event.listDir ∉ (language_server_binary_path env none).2.2 ∧
    (∀ q, Event.removeDirAll q ∉ (language_server_binary_path env none).2.2) ∧
    (∀ q, Event.makeExecutable q ∉
      (language_server_binary_path env none).2.2) := by
  have h : language_server_binary_path env none =
      (Except.ok
        ("arduino-language-server-" ++ rel.version ++ "/" ++
          binaryName env.platform),
       some ("arduino-language-server-" ++ rel.version ++ "/" ++
          binaryName env.platform),
       [Event.whichQuery "arduino_language_server",
        Event.setStatus Status.checkingForUpdate, Event.fetchRelease,
        Event.statFile ("arduino-language-server-" ++ rel.version ++ "/" ++
          binaryName env.platform)]) := by
    simp [language_server_binary_path, resolveCacheOrAcquire, acquire,
      updateCached, hover, hwhich, hrel, hfind, hfile]
  refine ⟨h, ?_, ?_, ?_, ?_⟩ <;> simp [h]

/-- Concrete environment in which the current version's binary is already
    installed at the versioned path. -/
def envInstalled : Env :=
  { envOverride with
    lspSettings := Except.error "no settings",
    which := fun _ => none,
    isFile := fun _ => true,
    latestRelease := Except.ok
      { version := "1.2.0",
        assets := [{ name := "arduino-language-server_1.2.0_Linux_64bit.tar.gz",
                     download_url := "http://u/a" }] } }

/-- Witness for C4 at a concrete environment. -/
theorem c4_existing_binary_pure_witness :
    language_server_binary_path envInstalled none =
      (Except.ok "arduino-language-server-1.2.0/arduino-language-server",
       some "arduino-language-server-1.2.0/arduino-language-server",
       [Event.whichQuery "arduino_language_server",
        Event.setStatus Status.checkingForUpdate, Event.fetchRelease,
        Event.statFile "arduino-language-server-1.2.0/arduino-language-server"]) ∧
    (∀ u d, Event.download u d ∉
      (language_server_binary_path envInstalled none).2.2) ∧
    Event.listDir ∉ (language_server_binary_path envInstalled none).2.2 ∧
    (∀ q, Event.removeDirAll q ∉
      (language_server_binary_path envInstalled none).2.2) ∧
    (∀ q, Event.makeExecutable q ∉
      (language_server_binary_path envInstalled none).2.2) :=
  c4_existing_binary_pure envInstalled
    { version := "1.2.0",
      assets := [{ name := "arduino-language-server_1.2.0_Linux_64bit.tar.gz",
                   download_url := "http://u/a" }] }
    { name := "arduino-language-server_1.2.0_Linux_64bit.tar.gz",
      download_url := "http://u/a" }
    rfl rfl rfl rfl rfl

/-- C6: a cached path that no longer names a regular file is not returned:
    resolution stats it, discards it, and proceeds to acquisition — the
    result is exactly the acquisition outcome, and the trace records the
    release-feed query. -/
theorem c6_stale_cache_falls_through (env : Env) (p : String)
    (hover : resolveOverride env = none)
    (hwhich : env.which "arduino_language_server" = none)
    (hstale : env.isFile p = false) :
    language_server_binary_path env (some p) =
      ((acquire env).1, updateCached (acquire env).1 (some p),
       Event.whichQuery "arduino_language_server" :: Event.statFile p ::
         (acquire env).2) ∧
    Event.fetchRelease ∈ (language_server_binary_path env (some p)).2.2 := by
  have h : language_server_binary_path env (some p) =
      ((acquire env).1, updateCached (acquire env).1 (some p),
       Event.whichQuery "arduino_language_server" :: Event.statFile p ::
         (acquire env).2) := by
    simp [language_server_binary_path, resolveCacheOrAcquire, hover, hwhich,
      hstale]
  refine ⟨h, ?_⟩
  rw [h]
  simp [fetchRelease_mem_acquire env]

/-- Concrete environment with a stale cached path: the file at the cached
    path is gone, and acquisition would fail offline. -/
def envStaleCache : Env :=
  { envOverride with
    lspSettings := Except.error "no settings",
    which := fun _ => none,
    isFile := fun _ => false }

/-- Witness for C6 at a concrete environment. -/
theorem c6_stale_cache_falls_through_witness :
    language_server_binary_path envStaleCache (some "/tmp/gone") =
      ((acquire envStaleCache).1,
       updateCached (acquire envStaleCache).1 (some "/tmp/gone"),
       Event.whichQuery "arduino_language_server" ::
         Event.statFile "/tmp/gone" :: (acquire envStaleCache).2) ∧
    Event.fetchRelease ∈
      (language_server_binary_path envStaleCache (some "/tmp/gone")).2.2 :=
  c6_stale_cache_falls_through envStaleCache "/tmp/gone" rfl rfl rfl

/-- C10: the PATH probe asks for `arduino_language_server` (underscores),
    while the installed executable is named `arduino-language-server`
    (hyphens; `.exe`-suffixed on Windows) — the two names differ on every
    platform.  Hence in any state where PATH resolves only the installed
    binary's name, the probe misses and resolution goes on to the cache and
    acquisition steps. -/
theorem c10_which_name_mismatch (env : Env) (cached : Option String)
    (instPath : String)
    (hover : resolveOverride env = none)
    (hwhich : ∀ n, env.which n =
      if n = binaryName env.platform then some instPath else none) :
    (∀ o : Os, binaryName o ≠ "arduino_language_server") ∧
    env.which "arduino_language_server" = none ∧
    language_server_binary_path env cached =
      ((resolveCacheOrAcquire env cached).1,
       (resolveCacheOrAcquire env cached).2.1,
       Event.whichQuery "arduino_language_server" ::
         (resolveCacheOrAcquire env cached).2.2) := by
  have hname : ∀ o : Os, binaryName o ≠ "arduino_language_server" := by
    intro o; cases o <;> decide
  have hmiss : env.which "arduino_language_server" = none := by
    rw [hwhich]
    have : "arduino_language_server" ≠ binaryName env.platform :=
      fun h => hname env.platform h.symm
    simp [this]
  refine ⟨hname, hmiss, ?_⟩
  simp [language_server_binary_path, hover, hmiss]

/-- Concrete environment in which PATH resolves exactly the installed
    binary's (hyphenated) name and nothing else. -/
def envHyphenOnly : Env :=
  { envOverride with
    lspSettings := Except.error "no settings",
    which := fun n =>
      if n = binaryName Os.linux then some "/inst/als" else none }

/-- Witness for C10 at a concrete environment. -/
theorem c10_which_name_mismatch_witness :
    (∀ o : Os, binaryName o ≠ "arduino_language_server") ∧
    envHyphenOnly.which "arduino_language_server" = none ∧
    language_server_binary_path envHyphenOnly none =
      ((resolveCacheOrAcquire envHyphenOnly none).1,
       (resolveCacheOrAcquire envHyphenOnly none).2.1,
       Event.whichQuery "arduino_language_server" ::
         (resolveCacheOrAcquire envHyphenOnly none).2.2) :=
  c10_which_name_mismatch envHyphenOnly none "/inst/als" rfl (fun _ => rfl)

/-- When every directory entry loads and reports its file type successfully,
    the cleanup loop finishes without an error — the removals' own results
    are never consulted. -/
theorem cleanupEntries_all_ok (versionDir : String) (entries : List DirEntry)
    (h : ∀ e ∈ entries, ∃ b, e.fileType = Except.ok b) :
    (cleanupEntries versionDir (entries.map Except.ok)).2 = Except.ok () := by
  induction entries with
  | nil => rfl
  | cons e rest ih =>
    obtain ⟨b, hb⟩ := h e (List.mem_cons_self e rest)
    have hrest := ih (fun x hx => h x (List.mem_cons_of_mem e hx))
    simp [cleanupEntries, hb, hrest]

/-- Helper: hypotheses under which resolution takes the download branch and
    succeeds — no override, no PATH hit, empty cache, matching asset, binary
    not yet present, download / listing / inspections / permission change
    all succeed.  Nothing is assumed about `env.removeOk`: removal outcomes
    are irrelevant to the result. -/
theorem resolve_download_succeeds (env : Env) (rel : GithubRelease)
    (asset : Asset) (entries : List DirEntry)
    (hover : resolveOverride env = none)
    (hwhich : env.which "arduino_language_server" = none)
    (hrel : env.latestRelease = Except.ok rel)
    (hfind : rel.assets.find?
      (fun a => a.name == mkAssetName rel.version env.platform env.arch)
        = some asset)
    (hmiss : env.isFile
      ("arduino-language-server-" ++ rel.version ++ "/" ++
        binaryName env.platform) = false)
    (hdl : env.downloadOk asset.download_url
      ("arduino-language-server-" ++ rel.version) = Except.ok ())
    (hrd : env.readDir = Except.ok (entries.map Except.ok))
    (hft : ∀ e ∈ entries, ∃ b, e.fileType = Except.ok b)
    (hexec : env.makeExec
      ("arduino-language-server-" ++ rel.version ++ "/" ++
        binaryName env.platform) = Except.ok ()) :
    (language_server_binary_path env none).1 =
      Except.ok ("arduino-language-server-" ++ rel.version ++ "/" ++
        binaryName env.platform) := by
  have hclean := cleanupEntries_all_ok
    ("arduino-language-server-" ++ rel.version) entries hft
  simp [language_server_binary_path, resolveCacheOrAcquire, acquire,
    updateCached, hover, hwhich, hrel, hfind, hmiss, hdl, hrd, hclean, hexec]

/-- C2 (amended): after a successful download and extraction, a failure of
    the stale-directory *removal* step never causes an error — resolution
    succeeds with the environment's actual removal outcomes and equally with
    them replaced by any others.  (A failure of listing the working
    directory or of inspecting an entry, by contrast, does abort resolution;
    see the counterexample.) -/
theorem c2_removal_failures_swallowed (env : Env) (f : String → Bool)
    (rel : GithubRelease) (asset : Asset) (entries : List DirEntry)
    (hover : resolveOverride env = none)
    (hwhich : env.which "arduino_language_server" = none)
    (hrel : env.latestRelease = Except.ok rel)
    (hfind : rel.assets.find?
      (fun a => a.name == mkAssetName rel.version env.platform env.arch)
        = some asset)
    (hmiss : env.isFile
      ("arduino-language-server-" ++ rel.version ++ "/" ++
        binaryName env.platform) = false)
    (hdl : env.downloadOk asset.download_url
      ("arduino-language-server-" ++ rel.version) = Except.ok ())
    (hrd : env.readDir = Except.ok (entries.map Except.ok))
    (hft : ∀ e ∈ entries, ∃ b, e.fileType = Except.ok b)
    (hexec : env.makeExec
      ("arduino-language-server-" ++ rel.version ++ "/" ++
        binaryName env.platform) = Except.ok ()) :
    (language_server_binary_path env none).1 =
      Except.ok ("arduino-language-server-" ++ rel.version ++ "/" ++
        binaryName env.platform) ∧
    (language_server_binary_path { env with removeOk := f } none).1 =
      Except.ok ("arduino-language-server-" ++ rel.version ++ "/" ++
        binaryName env.platform) :=
  ⟨resolve_download_succeeds env rel asset entries hover hwhich hrel hfind
      hmiss hdl hrd hft hexec,
   resolve_download_succeeds { env with removeOk := f } rel asset entries
      hover hwhich hrel hfind hmiss hdl hrd hft hexec⟩

/-- A release of version 1.2.0 with the one asset a Linux/x86-64 target
    expects. -/
def releaseLinux120 : GithubRelease :=
  { version := "1.2.0",
    assets := [{ name := "arduino-language-server_1.2.0_Linux_64bit.tar.gz",
                 download_url := "http://u/a" }] }

/-- Two directories found in the working directory after extraction: the
    fresh version directory and one stale version directory. -/
def staleEntries : List DirEntry :=
  [{ name := "arduino-language-server-1.2.0", fileType := Except.ok true },
   { name := "arduino-language-server-0.9.0", fileType := Except.ok true }]

/-- Concrete environment in which the download branch runs and every
    directory removal fails. -/
def envRemoveFail : Env :=
  { envOverride with
    lspSettings := Except.error "no settings",
    which := fun _ => none,
    isFile := fun _ => false,
    latestRelease := Except.ok releaseLinux120,
    readDir := Except.ok (staleEntries.map Except.ok),
    removeOk := fun _ => false }

/-- Witness for C2 (amended) at a concrete environment. -/
theorem c2_removal_failures_swallowed_witness :
    (language_server_binary_path envRemoveFail none).1 =
      Except.ok ("arduino-language-server-" ++ "1.2.0" ++ "/" ++
        binaryName Os.linux) ∧
    (language_server_binary_path
        { envRemoveFail with removeOk := fun _ => true } none).1 =
      Except.ok ("arduino-language-server-" ++ "1.2.0" ++ "/" ++
        binaryName Os.linux) :=
  c2_removal_failures_swallowed envRemoveFail (fun _ => true) releaseLinux120
    { name := "arduino-language-server_1.2.0_Linux_64bit.tar.gz",
      download_url := "http://u/a" }
    staleEntries rfl rfl rfl rfl rfl rfl rfl (by decide) rfl

/-- Concrete environment in which the download succeeds but listing the
    working directory fails. -/
def envListFail : Env :=
  { envRemoveFail with readDir := Except.error "disk fault" }

/-- Counterexample to C2 as stated: here the download and extraction
    succeed, then the cleanup pass's *listing* step fails — and resolution
    returns an error, contradicting the claim that no cleanup-step failure
    can fail resolution. -/
theorem c2_counterexample_listing_failure_propagates :
    (language_server_binary_path envListFail none).1 =
      Except.error "failed to list working directory disk fault" := by
  decide

/-- C8 (amended): after a fresh download in which listing and every
    inspection succeed, resolution succeeds; and *provided every removal
    succeeds*, the directories remaining in the working directory are
    exactly the freshly created version directory.  (Without that proviso a
    failed removal leaves a stale directory behind while resolution still
    succeeds; see the counterexample.) -/
theorem c8_cleanup_leaves_one_dir (env : Env) (rel : GithubRelease)
    (asset : Asset) (entries : List DirEntry)
    (hover : resolveOverride env = none)
    (hwhich : env.which "arduino_language_server" = none)
    (hrel : env.latestRelease = Except.ok rel)
    (hfind : rel.assets.find?
      (fun a => a.name == mkAssetName rel.version env.platform env.arch)
        = some asset)
    (hmiss : env.isFile
      ("arduino-language-server-" ++ rel.version ++ "/" ++
        binaryName env.platform) = false)
    (hdl : env.downloadOk asset.download_url
      ("arduino-language-server-" ++ rel.version) = Except.ok ())
    (hrd : env.readDir = Except.ok (entries.map Except.ok))
    (hft : ∀ e ∈ entries, ∃ b, e.fileType = Except.ok b)
    (hexec : env.makeExec
      ("arduino-language-server-" ++ rel.version ++ "/" ++
        binaryName env.platform) = Except.ok ())
    (hnew : ∃ e ∈ entries,
      e.name = "arduino-language-server-" ++ rel.version ∧ entryIsDir e = true)
    (hrm : ∀ e ∈ entries, entryIsDir e = true →
      e.name ≠ "arduino-language-server-" ++ rel.version →
      env.removeOk ("./" ++ e.name) = true) :
    (language_server_binary_path env none).1 =
      Except.ok ("arduino-language-server-" ++ rel.version ++ "/" ++
        binaryName env.platform) ∧
    ∀ d, d ∈ remainingDirs env ("arduino-language-server-" ++ rel.version)
        entries ↔ d = "arduino-language-server-" ++ rel.version := by
  refine ⟨resolve_download_succeeds env rel asset entries hover hwhich hrel
    hfind hmiss hdl hrd hft hexec, ?_⟩
  intro d
  constructor
  · intro hd
    simp only [remainingDirs, List.mem_map, List.mem_filter] at hd
    obtain ⟨e, ⟨hmem, hcond⟩, hname⟩ := hd
    rw [Bool.and_eq_true, Bool.or_eq_true] at hcond
    obtain ⟨hdir, hor⟩ := hcond
    rcases hor with hvd | hkept
    · rw [← hname]
      exact eq_of_beq hvd
    · by_contra hne
      have hne2 : e.name ≠ "arduino-language-server-" ++ rel.version := by
        rw [hname]; exact hne
      have := hrm e hmem hdir hne2
      rw [this] at hkept
      simp at hkept
  · intro hd
    subst hd
    obtain ⟨e, hmem, hn, hdir⟩ := hnew
    refine List.mem_map.mpr ⟨e, List.mem_filter.mpr ⟨hmem, ?_⟩, hn⟩
    simp [hdir, hn]

/-- Concrete environment like `envRemoveFail` but in which every removal
    succeeds. -/
def envRemoveOk : Env :=
  { envRemoveFail with removeOk := fun _ => true }

/-- Witness for C8 (amended) at a concrete environment. -/
theorem c8_cleanup_leaves_one_dir_witness :
    (language_server_binary_path envRemoveOk none).1 =
      Except.ok ("arduino-language-server-" ++ "1.2.0" ++ "/" ++
        binaryName Os.linux) ∧
    ∀ d, d ∈ remainingDirs envRemoveOk ("arduino-language-server-" ++ "1.2.0")
        staleEntries ↔ d = "arduino-language-server-" ++ "1.2.0" :=
  c8_cleanup_leaves_one_dir envRemoveOk releaseLinux120
    { name := "arduino-language-server_1.2.0_Linux_64bit.tar.gz",
      download_url := "http://u/a" }
    staleEntries rfl rfl rfl rfl rfl rfl rfl (by decide) rfl (by decide)
    (by decide)

/-- Counterexample to C8 as stated: with every removal failing, resolution
    still completes successfully after the fresh download, yet the stale
    directory `arduino-language-server-0.9.0` — present before the install
    and differing from the new version directory's name — is still
    present afterwards. -/
theorem c8_counterexample_stale_dir_survives :
    (language_server_binary_path envRemoveFail none).1 =
      Except.ok "arduino-language-server-1.2.0/arduino-language-server" ∧
    "arduino-language-server-0.9.0" ∈
      remainingDirs envRemoveFail "arduino-language-server-1.2.0"
        staleEntries := by
  decide

/-- C7: the synthesized arguments are exactly the settings-supplied
    arguments followed by the three optional default blocks, and whenever
    the settings arguments already contain the exact string `-clangd`
    (respectively `-cli`, `-cli-config`), the corresponding block is empty —
    no duplicate flag is appended even when the tool or config file is
    discoverable.  Detection is plain string membership over the argument
    list (`List.contains`), not flag parsing. -/
theorem c7_user_flags_not_duplicated (env : Env) (cached : Option String)
    (cmd : Command) (c2 : Option String)
    (h : language_server_command env cached = (CmdOutcome.ok cmd, c2)) :
    cmd.args = settingsArgs env ++
        cliConfigArgs env ((settingsArgs env).contains "-cli-config") ++
        clangdArgs env ((settingsArgs env).contains "-clangd") ++
        cliArgs env ((settingsArgs env).contains "-cli") ∧
    ("-clangd" ∈ settingsArgs env →
      clangdArgs env ((settingsArgs env).contains "-clangd") = []) ∧
    ("-cli" ∈ settingsArgs env →
      cliArgs env ((settingsArgs env).contains "-cli") = []) ∧
    ("-cli-config" ∈ settingsArgs env →
      cliConfigArgs env ((settingsArgs env).contains "-cli-config") = []) := by
  refine ⟨?_, ?_, ?_, ?_⟩
  · rcases hr : (language_server_binary_path env cached).1 with e | cp
    · have hv : language_server_command env cached =
          (CmdOutcome.err e, (language_server_binary_path env cached).2.1) := by
        simp [language_server_command, hr]
      rw [hv] at h
      exact absurd h (by simp)
    · by_cases hcc : (!(settingsArgs env).contains "-cli-config" &&
          (defaultCliConfigPath env).isNone) = true
      · have hv : language_server_command env cached =
            (CmdOutcome.abort (envAbortMessage env.platform),
             (language_server_binary_path env cached).2.1) := by
          simp only [language_server_command, hr, hcc, if_true]
        rw [hv] at h
        exact absurd h (by simp)
      · have hv : language_server_command env cached =
            (CmdOutcome.ok
              { command := cp,
                args := settingsArgs env ++
                  cliConfigArgs env ((settingsArgs env).contains "-cli-config") ++
                  clangdArgs env ((settingsArgs env).contains "-clangd") ++
                  cliArgs env ((settingsArgs env).contains "-cli"),
                env := defaultEnvVars env (settingsEnvVars env) },
             (language_server_binary_path env cached).2.1) := by
          simp only [language_server_command, hr, if_neg hcc]
        rw [hv] at h
        injection h with h1 h2
        injection h1 with h1
        rw [← h1]
  · intro hmem
    have hb : (settingsArgs env).contains "-clangd" = true := by simpa using hmem
    simp only [clangdArgs, hb]
    exact if_pos trivial
  · intro hmem
    have hb : (settingsArgs env).contains "-cli" = true := by simpa using hmem
    simp only [cliArgs, hb]
    exact if_pos trivial
  · intro hmem
    have hb : (settingsArgs env).contains "-cli-config" = true := by
      simpa using hmem
    simp only [cliConfigArgs, hb]
    exact if_pos trivial

/-- Concrete environment: the user passes `-clangd /x/clangd` in settings
    while a different `clangd` is discoverable on PATH at `/y/clangd`. -/
def envUserClangd : Env :=
  { envOverride with
    lspSettings := Except.ok
      { binary := some
          { path := some "/bin/als",
            arguments := some ["-clangd", "/x/clangd"],
            env := some [("A", "B")] } },
    which := fun n => if n = "clangd" then some "/y/clangd" else none }

/-- Witness for C7 at a concrete environment: the synthesized arguments
    keep only the user's `/x/clangd`. -/
theorem c7_user_flags_not_duplicated_witness :
    Command.args
        { command := "/bin/als", args := ["-clangd", "/x/clangd"],
          env := [("A", "B")] } =
      settingsArgs envUserClangd ++
        cliConfigArgs envUserClangd
          ((settingsArgs envUserClangd).contains "-cli-config") ++
        clangdArgs envUserClangd
          ((settingsArgs envUserClangd).contains "-clangd") ++
        cliArgs envUserClangd
          ((settingsArgs envUserClangd).contains "-cli") ∧
    ("-clangd" ∈ settingsArgs envUserClangd →
      clangdArgs envUserClangd
        ((settingsArgs envUserClangd).contains "-clangd") = []) ∧
    ("-cli" ∈ settingsArgs envUserClangd →
      cliArgs envUserClangd
        ((settingsArgs envUserClangd).contains "-cli") = []) ∧
    ("-cli-config" ∈ settingsArgs envUserClangd →
      cliConfigArgs envUserClangd
        ((settingsArgs envUserClangd).contains "-cli-config") = []) :=
  c7_user_flags_not_duplicated envUserClangd none
    { command := "/bin/als", args := ["-clangd", "/x/clangd"],
      env := [("A", "B")] }
    none (by decide)

/-- C9: during command synthesis with no user-supplied `-cli-config`
    argument, once the binary path has been resolved, a missing home
    directory on Mac/Linux — or a missing `LOCALAPPDATA` variable on
    Windows — makes the whole operation end in a hard abort (the Rust
    `.expect(..)` panic), not a recoverable error and not a skipped
    default. -/
theorem c9_missing_env_hard_aborts (env : Env) (cached : Option String)
    (p : String) (c2 : Option String) (tr : List Event)
    (hok : language_server_binary_path env cached = (Except.ok p, c2, tr))
    (hflag : (settingsArgs env).contains "-cli-config" = false)
    (hmiss : ((env.platform = Os.mac ∨ env.platform = Os.linux) ∧
        env.homeDir = none) ∨
      (env.platform = Os.windows ∧ env.localAppData = none)) :
    language_server_command env cached =
      (CmdOutcome.abort (envAbortMessage env.platform), c2) := by
  have hnone : defaultCliConfigPath env = none := by
    rcases hmiss with ⟨hos, hh⟩ | ⟨hos, hl⟩
    · rcases hos with hos | hos <;> simp [defaultCliConfigPath, hos, hh]
    · simp [defaultCliConfigPath, hos, hl]
  simp [language_server_command, hok, hflag, hnone]
  simpa using hflag

/-- Concrete environment on Linux with no home directory and an explicit
    binary override (so resolution itself succeeds). -/
def envNoHome : Env :=
  { envOverride with homeDir := none }

/-- Witness for C9 at a concrete environment. -/
theorem c9_missing_env_hard_aborts_witness :
    language_server_command envNoHome none =
      (CmdOutcome.abort (envAbortMessage envNoHome.platform), none) :=
  c9_missing_env_hard_aborts envNoHome none "/opt/als" none [] rfl rfl
    (Or.inl ⟨Or.inr rfl, rfl⟩)

end ArduinoExt
